import Mathlib

/-!
Verification of the BESO iteration orchestrator (`beso_main.py`) of the
84monta/beso repository.  Each numeric quantity that the Python script holds
as a float is embedded as a rational number, element states (Python ints)
as integers or naturals, and Python dictionaries as association lists or
functions.  The collaborating modules (`beso_lib`, `beso_filters`) are not
part of the analysed sources; wherever the orchestrator calls into them the
embedding abstracts the call as an opaque input (an arbitrary filter
function, arbitrary imported result data), so every theorem quantifies over
all possible collaborator behaviour.
-/

namespace Beso

/-! ## Solver exit-status handling (beso_main.py lines 592-639)

After the blocking CalculiX subprocess call the script inspects
`exit_status`: statuses 201 and 1 get dedicated ERROR log lines, any other
non-zero status a generic ERROR line.  None of the branches raises or
breaks.  The script then imports results; if no usable result data is found
for the active objective it sets `missing_ccx_results` and aborts via
`assert False` (line 639) before `beso_lib.switching` is reached. -/

/-- Log lines produced by the exit-status check, lines 598-610. -/
def exitStatusLog (exit_status : Int) : List String :=
  if exit_status = 201 then
    ["ERROR: CalculiX exit status 201. It cannot open inp file."]
  else if exit_status = 1 then
    ["ERROR: CalculiX exit status 1. There might be invalid path_calculix."]
  else if exit_status ≠ 0 then
    ["ERROR: CalculiX exit status " ++ toString exit_status ++ "."]
  else
    []

/-- Control-flow outcome of the part of one iteration between the solver
call and the state-switching call. -/
inductive IterPhase where
  /-- The `assert False` of line 639 fired: run aborted, switching never
  reached. -/
  | abortedMissingResults : IterPhase
  /-- Control reached the `beso_lib.switching` call of line 959. -/
  | reachedSwitching : IterPhase
deriving DecidableEq, Repr

/-- Iteration phase from the solver return to the switching call:
the exit status is logged (lines 598-610), then the run aborts exactly
when the imported results are missing for the active objective
(lines 627-639); otherwise control continues to switching. -/
def afterSolve (exit_status : Int) (missing_ccx_results : Bool) :
    List String × IterPhase :=
  (exitStatusLog exit_status,
    if missing_ccx_results then IterPhase.abortedMissingResults
    else IterPhase.reachedSwitching)

/-! ## Element-state initialization from an integer `continue_from`
(beso_main.py lines 352-364)

For each configured domain: if `len(domain_density[dn]) - 1 <
continue_from` the state is set to `len(domain_density[dn]) - 1` (with an
INFO log), otherwise to `continue_from`; every element of the domain then
receives that state. -/

/-- State assigned to the elements of one domain, lines 356-362.
`densityLen` is `len(domain_density[dn])`. -/
def initStateForDomain (continue_from : Int) (densityLen : Nat) : Int :=
  if (densityLen : Int) - 1 < continue_from then (densityLen : Int) - 1
  else continue_from

/-- Whether the INFO message of line 358 is logged for a domain. -/
def initStateClampLogged (continue_from : Int) (densityLen : Nat) : Bool :=
  decide ((densityLen : Int) - 1 < continue_from)

/-- One configured domain for state initialization: the length of its
density table and the element numbers it contains. -/
structure InitDomain where
  densityLen : Nat
  elems : List Nat
deriving Repr

/-- Initialization of `elm_states` for an integer `continue_from`,
lines 354-364: every element of every domain is mapped to its domain's
initial state. -/
def initElmStates (doms : List InitDomain) (continue_from : Int) :
    List (Nat × Int) :=
  doms.flatMap fun d =>
    d.elems.map fun en => (en, initStateForDomain continue_from d.densityLen)

/-! ## Oscillation controller (beso_main.py lines 569-576 and 1029-1037)

Before the loop: `elm_states_before_last = ` empty dict,
`elm_states_last = elm_states` (the initial, iteration-0 states).
At the end of the loop pass that produced the states of iteration `k`
(`k ≥ 1`, after the `i += 1` of line 920, switching and state filtering),
line 1030 compares `elm_states_before_last == elm_states`; on equality the
loop breaks with the OSCILLATION message naming iteration `k - 2`;
otherwise `elm_states_before_last` takes the old `elm_states_last` and
`elm_states_last` takes the current states (lines 1036-1037).

Element-state maps are modelled as association lists in a fixed key order,
so list equality coincides with Python dict equality; the empty dict is the
empty list. -/

/-- Association-list model of the `elm_states` dictionary. -/
abbrev ElmStates := List (Nat × Nat)

/-- Pair `(elm_states_before_last, elm_states_last)` after the updates of
the pass producing the states of iteration `k`, assuming no break occurred
up to there.  `states k` is the element-state map after the switching and
state filtering of iteration `k`; `states 0` is the initial map. -/
def oscRegs (states : Nat → ElmStates) : Nat → ElmStates × ElmStates
  | 0 => ([], states 0)
  | k + 1 => ((oscRegs states k).2, states (k + 1))

/-- Result of the oscillation comparison of line 1030 at the end of the
pass producing the states of iteration `k` (`k ≥ 1`): true exactly when
the loop breaks there with the OSCILLATION message. -/
def oscDetected (states : Nat → ElmStates) (k : Nat) : Bool :=
  decide ((oscRegs states (k - 1)).1 = states k)

/-! ## Convergence check (beso_main.py lines 872-897)

At the end of every iteration `i` the script, once the tracked mean list
(`FI_mean` or `energy_density_mean`, whichever the run records) holds more
than 5 values, computes the maximum over `last` in 1..5 of
`abs(mean[i] - mean[i-last]) / mean[i]`; if that maximum is below
`tolerance`, or otherwise the mean is identical at `i`, `i-1` and `i-2`,
it sets `continue_iterations = False`, which makes line 900 break the loop
at the end of this same iteration.  `continue_iterations` starts `True`
and is never reset to `True`.  The tracked mean at iteration `i` is
`mean i`; after iteration `i` the list holds `i + 1` values. -/

/-- Maximum relative difference of the tracked mean over the last 5
iterations, the `difference` of lines 874-877 (and 887-890). -/
def diffLast5 (mean : Nat → ℚ) (i : Nat) : ℚ :=
  max (|mean i - mean (i - 1)| / mean i)
    (max (|mean i - mean (i - 2)| / mean i)
      (max (|mean i - mean (i - 3)| / mean i)
        (max (|mean i - mean (i - 4)| / mean i)
          (|mean i - mean (i - 5)| / mean i))))

/-- Whether the check at the end of iteration `i` sets
`continue_iterations = False` (lines 873-884 for `FI_mean`, identically
lines 886-897 for `energy_density_mean`). -/
def convergenceTriggered (mean : Nat → ℚ) (tolerance : ℚ) (i : Nat) : Bool :=
  if 5 < i + 1 then
    if diffLast5 mean i < tolerance then true
    else if mean i = mean (i - 1) ∧ mean (i - 1) = mean (i - 2) then true
    else false
  else false

/-- Value of `continue_iterations` after the check at the end of
iteration `i`: it starts `True` (line 571) and, once cleared, is never
set back. -/
def continueIterations (mean : Nat → ℚ) (tolerance : ℚ) : Nat → Bool
  | 0 => !convergenceTriggered mean tolerance 0
  | i + 1 =>
      continueIterations mean tolerance i && !convergenceTriggered mean tolerance (i + 1)

/-- The run reports CONVERGED at iteration `i`: the break of line 900 is
taken because `continue_iterations` became `False` at this very
iteration. -/
def convergedAt (mean : Nat → ℚ) (tolerance : ℚ) (i : Nat) : Prop :=
  continueIterations mean tolerance i = false ∧
    ∀ j, j < i → continueIterations mean tolerance j = true

/-- Modelled from the spec: the convergence condition as the claim states
it — more than 5 recorded values of the tracked mean, and either the
maximum relative change over the last 5 iterations is below tolerance or
the mean is exactly equal for three consecutive iterations. -/
def specConvergenceCond (mean : Nat → ℚ) (tolerance : ℚ) (i : Nat) : Prop :=
  5 < i + 1 ∧
    (diffLast5 mean i < tolerance ∨
      (mean i = mean (i - 1) ∧ mean (i - 1) = mean (i - 2)))

/-! ## Per-iteration mass goal (beso_main.py lines 923-963)

After `i += 1`, the script computes `mass_goal_i` for iteration `i`.
`mass_goal_i` is a plain global: on the very first pass it is unbound, and
one branch (lines 933-941) may leave it unbound, merely logging a WARNING;
the binding therefore has type `Option ℚ` here, `none` meaning unbound.
Line 959 then evaluates `mass_goal_i` as an argument of
`beso_lib.switching`: with `none` this raises an uncaught `NameError`. -/

/-- Mutable context entering the mass-goal computation of iteration `i`:
the current binding of `mass_goal_i` (from a previous iteration, `none` if
never assigned), `i_violated` and `check_tolerance`. -/
structure MassGoalCtx where
  massGoalBinding : Option ℚ
  iViolated : Nat
  checkTolerance : Bool
deriving Repr, DecidableEq

/-- Context after the mass-goal computation, plus whether the WARNING of
lines 940-941 was logged. -/
structure MassGoalResult where
  massGoalBinding : Option ℚ
  iViolated : Nat
  checkTolerance : Bool
  warned : Bool
deriving Repr, DecidableEq

/-- Mass-goal computation in the 'removing from initial mass' regime,
lines 924-943 (taken when `mass_removal_ratio - mass_addition_ratio > 0`).
`fiViolPrev` is `sum(FI_violated[i - 1])`, `fiViol0` is
`sum(FI_violated[0])`, `massPrev` is `mass[i - 1]`. -/
def massGoalRemoving (fiViolPrev fiViol0 fiViolatedTolerance : ℚ)
    (massPrev massFull massGoalRatio : ℚ) (i : Nat) (ctx : MassGoalCtx) :
    MassGoalResult :=
  if fiViolPrev > fiViol0 + fiViolatedTolerance then
    { massGoalBinding :=
        some (if massPrev ≥ massGoalRatio * massFull then massPrev
              else massGoalRatio * massFull)
      iViolated := if ctx.iViolated = 0 then i else ctx.iViolated
      checkTolerance := if ctx.iViolated = 0 then true else ctx.checkTolerance
      warned := false }
  else if massPrev ≤ massGoalRatio * massFull then
    { massGoalBinding := ctx.massGoalBinding
      iViolated := if ctx.iViolated = 0 then i else ctx.iViolated
      checkTolerance := if ctx.iViolated = 0 then true else ctx.checkTolerance
      warned := ctx.massGoalBinding = none }
  else
    { massGoalBinding := some (massGoalRatio * massFull)
      iViolated := ctx.iViolated
      checkTolerance := ctx.checkTolerance
      warned := false }

/-- Mass-goal computation in the 'adding to initial mass' regime,
lines 944-951. -/
def massGoalAdding (massAdditionRatio massRemovalRatio : ℚ)
    (massPrev massFull massGoalRatio : ℚ) (i : Nat) (ctx : MassGoalCtx) :
    MassGoalResult :=
  if massPrev < massGoalRatio * massFull then
    { massGoalBinding :=
        some (massPrev + (massAdditionRatio - massRemovalRatio) * massFull)
      iViolated := ctx.iViolated
      checkTolerance := ctx.checkTolerance
      warned := false }
  else
    { massGoalBinding := some (massGoalRatio * massFull)
      iViolated := if ctx.iViolated = 0 then i else ctx.iViolated
      checkTolerance := if ctx.iViolated = 0 then true else ctx.checkTolerance
      warned := false }

/-- Regime dispatch of line 924: removing when
`mass_removal_ratio - mass_addition_ratio > 0`, adding otherwise. -/
def massGoalStep (massRemovalRatio massAdditionRatio : ℚ)
    (fiViolPrev fiViol0 fiViolatedTolerance : ℚ)
    (massPrev massFull massGoalRatio : ℚ) (i : Nat) (ctx : MassGoalCtx) :
    MassGoalResult :=
  if massRemovalRatio - massAdditionRatio > 0 then
    massGoalRemoving fiViolPrev fiViol0 fiViolatedTolerance
      massPrev massFull massGoalRatio i ctx
  else
    massGoalAdding massAdditionRatio massRemovalRatio
      massPrev massFull massGoalRatio i ctx

/-- Outcome of evaluating `mass_goal_i` at the `beso_lib.switching` call
of line 959. -/
inductive SwitchCall where
  /-- The call is made with the given mass goal value. -/
  | called : ℚ → SwitchCall
  /-- `mass_goal_i` is unbound: the expression raises an uncaught
  `NameError` and the run dies before `beso_lib.switching` runs. -/
  | nameError : SwitchCall
deriving DecidableEq, Repr

/-- Evaluation of the `mass_goal_i` argument at line 959. -/
def switchingCall (r : MassGoalResult) : SwitchCall :=
  match r.massGoalBinding with
  | some m => SwitchCall.called m
  | none => SwitchCall.nameError

/-! ## State filtering and mass correction (beso_main.py lines 966-1007)

After `beso_lib.switching` appended `mass[i]`, the script stores
`mass_not_filtered = mass[i]` and, for every state-kind morphology filter,
computes `elm_states_filtered = beso_filters.run_morphology(...)` (an
opaque collaborator, modelled as an arbitrary function on state maps) and
walks the optimized domains: for every shell element whose state differs
from the filtered state it adds
`area * (density[new] * thickness[new] - density[old] * thickness[old])`
to `mass[i]` and adopts the filtered state; for every volume element it
adds `volume * (density[new] - density[old])`.  Finally (line 1007)
`mass_excess = mass[i] - mass_not_filtered`.

Element states are modelled as a total function `Nat → Nat` from element
number to state; per-domain density and thickness tables as lists indexed
by state (lookups use `getD`, which matches Python indexing whenever the
state is in range). -/

/-- Shell element of a domain: element number and `area_elm[en]`. -/
structure ShellElem where
  en : Nat
  area : ℚ
deriving Repr, DecidableEq

/-- Volume element of a domain: element number and `volume_elm[en]`. -/
structure VolElem where
  en : Nat
  volume : ℚ
deriving Repr, DecidableEq

/-- One configured domain as the state-filter correction loop sees it:
`domain_optimized[dn]`, `domain_density[dn]`, `domain_thickness[dn]` and
its shell and volume element sets. -/
structure OptDomain where
  optimized : Bool
  density : List ℚ
  thickness : List ℚ
  shells : List ShellElem
  volumes : List VolElem
deriving Repr

/-- Mass contribution of a shell element at state `s`:
`domain_density[dn][s] * area_elm[en] * domain_thickness[dn][s]`
(cf. line 387). -/
def shellMass (d : OptDomain) (e : ShellElem) (s : Nat) : ℚ :=
  d.density.getD s 0 * e.area * d.thickness.getD s 0

/-- Mass contribution of a volume element at state `s`:
`domain_density[dn][s] * volume_elm[en]` (cf. line 391). -/
def volMass (d : OptDomain) (e : VolElem) (s : Nat) : ℚ :=
  d.density.getD s 0 * e.volume

/-- Sequential walk of lines 990-996 over the shell elements of one
domain: state update and mass correction, mutating the state map and the
current ledger entry in order. -/
def shellPass (d : OptDomain) (stf : Nat → Nat) :
    List ShellElem → (Nat → Nat) × ℚ → (Nat → Nat) × ℚ
  | [], acc => acc
  | e :: rest, (st, m) =>
      if st e.en ≠ stf e.en then
        shellPass d stf rest
          (Function.update st e.en (stf e.en),
            m + e.area *
              (d.density.getD (stf e.en) 0 * d.thickness.getD (stf e.en) 0 -
                d.density.getD (st e.en) 0 * d.thickness.getD (st e.en) 0))
      else shellPass d stf rest (st, m)

/-- Sequential walk of lines 997-1001 over the volume elements of one
domain. -/
def volPass (d : OptDomain) (stf : Nat → Nat) :
    List VolElem → (Nat → Nat) × ℚ → (Nat → Nat) × ℚ
  | [], acc => acc
  | e :: rest, (st, m) =>
      if st e.en ≠ stf e.en then
        volPass d stf rest
          (Function.update st e.en (stf e.en),
            m + e.volume *
              (d.density.getD (stf e.en) 0 - d.density.getD (st e.en) 0))
      else volPass d stf rest (st, m)

/-- Correction loop over the configured domains for one state filter,
lines 988-1001: non-optimized domains are skipped. -/
def domainsPass (doms : List OptDomain) (stf : Nat → Nat)
    (acc : (Nat → Nat) × ℚ) : (Nat → Nat) × ℚ :=
  doms.foldl
    (fun a d => if d.optimized then volPass d stf d.volumes (shellPass d stf d.shells a)
                else a)
    acc

/-- One state-kind morphology filter application, lines 981-1001: the
collaborating `run_morphology` output is `filt st`, then the correction
loop runs. -/
def stateFilterPass (doms : List OptDomain) (filt : (Nat → Nat) → Nat → Nat)
    (acc : (Nat → Nat) × ℚ) : (Nat → Nat) × ℚ :=
  domainsPass doms (filt acc.1) acc

/-- Whole state-filtering stage of lines 966-1007 for the state-kind
filters of `filter_list`, in order, returning the final states, the final
ledger entry `mass[i]` and `mass_excess`. -/
def stateFilterStage (doms : List OptDomain)
    (filters : List ((Nat → Nat) → Nat → Nat)) (st : Nat → Nat) (massI : ℚ) :
    ((Nat → Nat) × ℚ) × ℚ :=
  (filters.foldl (fun a f => stateFilterPass doms f a) (st, massI),
    (filters.foldl (fun a f => stateFilterPass doms f a) (st, massI)).2 - massI)

/-- Claim-side mass delta of a single element pair of states: filtered
minus unfiltered mass, zero when the filter did not change the state. -/
def shellDelta (d : OptDomain) (st stf : Nat → Nat) (e : ShellElem) : ℚ :=
  if st e.en ≠ stf e.en then shellMass d e (stf e.en) - shellMass d e (st e.en) else 0

/-- Claim-side mass delta for a volume element. -/
def volDelta (d : OptDomain) (st stf : Nat → Nat) (e : VolElem) : ℚ :=
  if st e.en ≠ stf e.en then volMass d e (stf e.en) - volMass d e (st e.en) else 0

/-- Sum over changed elements of all optimized domains of the mass delta
implied by one filter's state changes. -/
def filterMassDelta (doms : List OptDomain) (st stf : Nat → Nat) : ℚ :=
  (doms.map fun d =>
      if d.optimized then
        (d.shells.map (shellDelta d st stf)).sum + (d.volumes.map (volDelta d st stf)).sum
      else 0).sum

/-- Element numbers of a domain (shells then volumes). -/
def OptDomain.ens (d : OptDomain) : List Nat :=
  d.shells.map ShellElem.en ++ d.volumes.map VolElem.en

/-- Element numbers of all optimized domains. -/
def optEns (doms : List OptDomain) : List Nat :=
  doms.flatMap fun d => if d.optimized then d.ens else []

/-! ## Automatic iteration limit (beso_main.py lines 395-414)

With `iterations_limit == "auto"` the script sets `m = mass[0] / mass_full`
and branches on `ratio_type` and the sign of
`mass_removal_ratio - mass_addition_ratio`.  For `"absolute"` it computes
`int(q + 25)` for the linear quotient `q`; Python `int()` truncates toward
zero.  For `"relative"` it counts while-loop steps `m -= m * d`
(respectively `m += m * d`) until the goal fraction is crossed and adds
25.  After `n` steps of `m -= m * d` the value is exactly `m * (1 - d)^n`,
and the loop exits at the first `n` with `m * (1 - d)^n ≤ goal`, so the
loop count is the least such `n`; likewise the adding loop exits at the
first `n` with `goal ≤ m * (1 + d)^n`. -/

/-- Python `int()` applied to a rational: truncation toward zero. -/
def pyInt (q : ℚ) : Int :=
  if 0 ≤ q then ⌊q⌋ else ⌈q⌉

/-- Absolute-ratio automatic limit, lines 397-400; `none` when
`mass_removal_ratio = mass_addition_ratio` (neither branch taken, the
limit keeps the string value). -/
def iterationsLimitAutoAbs (m massGoalRatio massRemovalRatio massAdditionRatio : ℚ) :
    Option Int :=
  if massRemovalRatio - massAdditionRatio > 0 then
    some (pyInt ((m - massGoalRatio) / (massRemovalRatio - massAdditionRatio) + 25))
  else if massRemovalRatio - massAdditionRatio < 0 then
    some (pyInt ((massGoalRatio - m) / (massAdditionRatio - massRemovalRatio) + 25))
  else
    none

/-- Loop count of the removing while loop of lines 403-406 (taken for
relative ratios with `mass_removal_ratio - mass_addition_ratio > 0`,
`d` being that difference): the least `n` with `m * (1 - d)^n ≤ goal`. -/
def relRemovingSteps (m goal d : ℚ) (h : ∃ n, m * (1 - d) ^ n ≤ goal) : Nat :=
  Nat.find h

/-- Loop count of the adding while loop of lines 407-410, `d` being
`mass_addition_ratio - mass_removal_ratio`. -/
def relAddingSteps (m goal d : ℚ) (h : ∃ n, goal ≤ m * (1 + d) ^ n) : Nat :=
  Nat.find h

/-- Relative-ratio automatic limit in the removing direction,
line 411. -/
def iterationsLimitAutoRelRemoving (m goal d : ℚ)
    (h : ∃ n, m * (1 - d) ^ n ≤ goal) : Nat :=
  relRemovingSteps m goal d h + 25

/-- Relative-ratio automatic limit in the adding direction, line 411. -/
def iterationsLimitAutoRelAdding (m goal d : ℚ)
    (h : ∃ n, goal ≤ m * (1 + d) ^ n) : Nat :=
  relAddingSteps m goal d h + 25

/-- Modelled from the spec: the linear crossing count for absolute ratios
— the least `n` with `m - n * d ≤ goal`, i.e. the number of linear steps
needed to travel from the initial mass fraction to the goal fraction. -/
def linearCrossSteps (m goal d : ℚ) (h : ∃ n : Nat, m - n * d ≤ goal) : Nat :=
  Nat.find h

/-! ## Failure-index sensitivity (beso_main.py lines 663-687)

For each element, `FI_step_max[en]` starts at 0; for every load step the
script drops the `None` entries of `FI_step[sn][en]` (one value per
criterion) and maxes the remainder into the accumulator (line 676); Python
`max` of an empty sequence raises `ValueError`, modelled as `none`.  For
`optimization_base == "failure_index"` the sensitivity number is
`FI_step_max[en] / domain_density[dn][elm_states[en]]` (line 687). -/

/-- Accumulating loop of lines 670-676 for one element: `fis` lists, per
load step, the per-criterion optional failure indices of the element. -/
def fiStepMaxAux : List (List (Option ℚ)) → ℚ → Option ℚ
  | [], acc => some acc
  | step :: rest, acc =>
      match (step.filterMap id).max? with
      | none => none
      | some ms => fiStepMaxAux rest (max acc ms)

/-- Value of `FI_step_max[en]` after the loop (`none` models the Python
`ValueError` on a step with no non-`None` failure index). -/
def fiStepMax (fis : List (List (Option ℚ))) : Option ℚ :=
  fiStepMaxAux fis 0

/-- Sensitivity number for the `failure_index` objective, line 687:
`density` is `domain_density[dn]` and `state` is `elm_states[en]`. -/
def sensitivityFailureIndex (fis : List (List (Option ℚ)))
    (density : List ℚ) (state : Nat) : Option ℚ :=
  (fiStepMax fis).map fun v => v / density.getD state 0

/-- Non-`None` failure indices of an element over all load steps and
criteria. -/
def allFIs (fis : List (List (Option ℚ))) : List ℚ :=
  (fis.map fun step => step.filterMap id).flatten

/-! ## Loop exit condition (beso_main.py line 900) -/

/-- Break condition of line 900: the loop exits when
`continue_iterations is False or i >= iterations_limit`. -/
def loopBreak (continue_iterations : Bool) (i iterationsLimit : Nat) : Bool :=
  !continue_iterations || decide (i ≥ iterationsLimit)

/-! ## Concrete inputs used by witnesses and counterexamples -/

/-- Synthetic state sequence with period 2: iteration 2 repeats
iteration 0. -/
def oscWitnessStates : Nat → ElmStates :=
  fun k => if k % 2 = 0 then [(1, 0)] else [(1, 1)]

/-- Synthetic state sequence for the early-termination counterexample:
states alternate between two maps from iteration 0 on. -/
def earlyOscStates : Nat → ElmStates :=
  fun k => if k % 2 = 0 then [(3, 2), (4, 1)] else [(3, 0), (4, 1)]

/-- Concrete one-domain mesh: two states with densities 1 and 2, unit
thicknesses, one shell element (number 1, area 3) and one volume element
(number 2, volume 5). -/
def csDoms : List OptDomain :=
  [{ optimized := true, density := [1, 2], thickness := [1, 1],
     shells := [⟨1, 3⟩], volumes := [⟨2, 5⟩] }]

/-- Concrete pre-filter element states: everything in state 1. -/
def csSt : Nat → Nat := fun _ => 1

/-- Concrete state filter sending every element to state 0. -/
def csFilt : (Nat → Nat) → Nat → Nat := fun _ _ => 0

/-! ## Helper lemmas -/

/-- Termination of the removing while loop of lines 403-406: the goal
fraction is positive and each step multiplies the mass fraction by
`1 - d < 1`. -/
theorem relRemoving_exists (m goal d : ℚ) (hg : 0 < goal) (hd : 0 < d) :
    ∃ n, m * (1 - d) ^ n ≤ goal := by
  rcases le_or_lt m 0 with hm | hm
  · exact ⟨0, by simpa using hm.trans hg.le⟩
  · obtain ⟨n, hn⟩ :=
      exists_pow_lt_of_lt_one (div_pos hg hm) (by linarith : (1 : ℚ) - d < 1)
    exact ⟨n, by rw [mul_comm]; exact le_of_lt ((lt_div_iff₀ hm).mp hn)⟩

/-- Termination of the adding while loop of lines 407-410. -/
theorem relAdding_exists (m goal d : ℚ) (hm : 0 < m) (hd : 0 < d) :
    ∃ n, goal ≤ m * (1 + d) ^ n := by
  obtain ⟨n, hn⟩ :=
    pow_unbounded_of_one_lt (goal / m) (by linarith : (1 : ℚ) < 1 + d)
  exact ⟨n, le_of_lt (by rw [mul_comm]; exact (div_lt_iff₀ hm).mp hn)⟩

/-- Register contents entering the comparison of line 1030: the second
register always holds the previous iteration's states. -/
theorem oscRegs_snd (states : Nat → ElmStates) (k : Nat) :
    (oscRegs states k).2 = states k := by
  cases k <;> rfl

/-- Register contents entering the comparison of line 1030 at pass `j`
with `2 ≤ j`: `elm_states_before_last` holds the states of iteration
`j - 2`. -/
theorem oscRegs_fst (states : Nat → ElmStates) (j : Nat) (hj : 2 ≤ j) :
    (oscRegs states (j - 1)).1 = states (j - 2) := by
  obtain ⟨t, rfl⟩ : ∃ t, j = t + 2 := ⟨j - 2, by omega⟩
  have h1 : t + 2 - 1 = t + 1 := by omega
  have h2 : t + 2 - 2 = t := by omega
  rw [h1, h2]
  show (oscRegs states t).2 = states t
  exact oscRegs_snd states t

/-! ## Claim theorems -/

/-- C1 (counterexample): a solver exit status of 1 whose iteration still
finds importable results does NOT terminate the run — an ERROR line is
logged but control reaches the `beso_lib.switching` call, refuting the
claim that every non-zero exit status raises a fatal SolverError before
the State-Switching Engine runs. -/
theorem solver_exit_one_reaches_switching_cex :
    (afterSolve 1 false).2 = IterPhase.reachedSwitching ∧
      (afterSolve 1 false).1 ≠ [] := by
  decide

/-- C1 (amended): a non-zero solver exit status is logged as an ERROR but
is not fatal by itself; the iteration aborts before the state-switching
call exactly when the imported results required by the active objective
are missing (the assertion of line 639), independently of the exit
status. -/
theorem solver_exit_logged_abort_iff_missing_results
    (exit_status : Int) (missing : Bool) :
    ((afterSolve exit_status missing).2 = IterPhase.abortedMissingResults ↔
        missing = true) ∧
      ((afterSolve exit_status missing).1 ≠ [] ↔ exit_status ≠ 0) := by
  constructor
  · cases missing <;> simp [afterSolve]
  · show ¬exitStatusLog exit_status = [] ↔ ¬exit_status = 0
    unfold exitStatusLog
    by_cases h201 : exit_status = 201 <;> by_cases h1 : exit_status = 1 <;>
      by_cases h0 : exit_status = 0 <;> simp_all

/-- C4 (code bug): with a net-removing configuration whose goal mass is
at or above the initial mass (here previous mass 40, full mass 100, goal
ratio 1/2, no violated elements), the first mass-goal computation logs
the WARNING of line 940 but leaves `mass_goal_i` unbound, so evaluating
it at the `beso_lib.switching` call of line 959 raises an uncaught
`NameError` and kills the run — contradicting the code's own warning-only
intent and the spec's non-fatal contract. -/
theorem unreachable_mass_goal_warns_then_name_error :
    (massGoalStep (3/100) (1/100) 0 0 1 40 100 (1/2) 1 ⟨none, 0, false⟩).warned = true ∧
      switchingCall (massGoalStep (3/100) (1/100) 0 0 1 40 100 (1/2) 1 ⟨none, 0, false⟩) =
        SwitchCall.nameError := by
  unfold massGoalStep massGoalRemoving switchingCall
  norm_num

/-- C6 (counterexample): in the net-removing regime with the previous
iteration's violation count above the baseline plus tolerance but the
previous mass (30) already below the goal mass (2/5 of 100 = 40), the
code sets `mass_goal_i` to the goal mass 40, not to the previous mass 30
as the claim states. -/
theorem healing_goal_not_prev_mass_cex :
    (massGoalStep (3/100) (1/100) 5 0 1 30 100 (2/5) 7
        ⟨some 35, 3, true⟩).massGoalBinding = some 40 ∧
      (40 : ℚ) ≠ 30 := by
  unfold massGoalStep massGoalRemoving
  norm_num

/-- C6 (amended): in a net-removing run, whenever the previous
iteration's violation total exceeds the first iteration's total plus the
tolerance, `mass_goal_i` is held at the previous iteration's mass unless
that mass has already dropped below the goal mass, in which case the goal
mass is used — i.e. the goal equals `max(mass[i-1],
mass_goal_ratio * mass_full)`. -/
theorem healing_goal_held_at_max
    (rem add fiViolPrev fiViol0 tol massPrev massFull goalRatio : ℚ)
    (i : Nat) (ctx : MassGoalCtx) (hreg : rem - add > 0)
    (hviol : fiViolPrev > fiViol0 + tol) :
    (massGoalStep rem add fiViolPrev fiViol0 tol massPrev massFull goalRatio
        i ctx).massGoalBinding =
      some (max massPrev (goalRatio * massFull)) := by
  unfold massGoalStep massGoalRemoving
  rw [if_pos hreg, if_pos hviol]
  rcases le_total (goalRatio * massFull) massPrev with h | h
  · simp [if_pos h, max_eq_left h]
  · rcases eq_or_lt_of_le h with h' | h'
    · simp [h', max_self]
    · rw [if_neg (by exact not_le.mpr h')]
      simp [max_eq_right h]

/-- C6 (witness): the amended theorem applied at a concrete healing
iteration. -/
theorem healing_goal_held_at_max_witness :
    (massGoalStep (3/100) (1/100) 5 0 1 30 100 (2/5) 7
        ⟨none, 0, false⟩).massGoalBinding = some (max 30 ((2/5 : ℚ) * 100)) :=
  healing_goal_held_at_max (3/100) (1/100) 5 0 1 30 100 (2/5) 7
    ⟨none, 0, false⟩ (by norm_num) (by norm_num)

/-- C8 (counterexample): with a synthetic state sequence whose iteration-2
states repeat iteration 0, the oscillation check of line 1030 terminates
the run at iteration 2 — only 3 iterations recorded, fewer than the 6 the
claim requires before any terminal transition. -/
theorem terminal_before_six_iterations_cex :
    oscDetected earlyOscStates 2 = true ∧
      oscDetected earlyOscStates 1 = false ∧ 2 + 1 < 6 := by
  decide

/-- C8 (amended): only the CONVERGED transition is guarded by the
six-recorded-iterations requirement — the convergence conditions are
evaluated only once more than 5 mean values are recorded; the OSCILLATING
check runs at the end of every iteration and can terminate the run as
early as iteration 2, and the ITERATION-LIMIT break of line 900 fires
whenever the iteration index reaches `iterations_limit`, however
small. -/
theorem converged_guard_and_early_terminals (mean : Nat → ℚ)
    (tolerance : ℚ) (i : Nat) (hi : i < 5) :
    convergenceTriggered mean tolerance i = false ∧
      (∃ states : Nat → ElmStates, oscDetected states 2 = true) ∧
      ∀ (b : Bool) (j lim : Nat), loopBreak b j lim = true ↔ (b = false ∨ lim ≤ j) := by
  refine ⟨?_, ⟨fun _ => [], by decide⟩, ?_⟩
  · unfold convergenceTriggered
    rw [if_neg (by omega)]
  · intro b j lim
    cases b <;> simp [loopBreak]

/-- C8 (witness): the amended theorem applied at iteration 3 of a
constant mean sequence. -/
theorem converged_guard_and_early_terminals_witness :
    convergenceTriggered (fun _ => 1) 1 3 = false ∧
      (∃ states : Nat → ElmStates, oscDetected states 2 = true) ∧
      ∀ (b : Bool) (j lim : Nat), loopBreak b j lim = true ↔ (b = false ∨ lim ≤ j) :=
  converged_guard_and_early_terminals (fun _ => 1) 1 3 (by omega)

/-- C10 (counterexample): a negative integer `continue_from` (here -1,
domain with 2 states) is assigned unclamped — the state equals
`min(continue_from, number of states - 1)` as the claim says, but it is
negative, so it is NOT a valid state index for the domain, refuting the
claim's validity conclusion. -/
theorem continue_from_negative_invalid_cex :
    initStateForDomain (-1) 2 = min (-1) ((2 : Int) - 1) ∧
      ¬(0 ≤ initStateForDomain (-1) 2) := by
  decide

/-- C10 (amended): initialization from an integer `continue_from` assigns
every element of each domain the state `min(continue_from, number of
states of that domain - 1)` (logging the clamp when it applies), and
whenever `continue_from` is non-negative and the domain declares at least
one state the assigned index is valid for that domain; a negative
`continue_from` is not clamped from below. -/
theorem continue_from_init_min_clamp (cf : Int) (doms : List InitDomain) :
    (∀ d : InitDomain, initStateForDomain cf d.densityLen =
        min cf ((d.densityLen : Int) - 1)) ∧
      (∀ p ∈ initElmStates doms cf, ∃ d ∈ doms, p.1 ∈ d.elems ∧
        p.2 = min cf ((d.densityLen : Int) - 1)) ∧
      (0 ≤ cf → ∀ d : InitDomain, 1 ≤ d.densityLen →
        0 ≤ initStateForDomain cf d.densityLen ∧
          initStateForDomain cf d.densityLen < (d.densityLen : Int)) := by
  have hmin : ∀ d : InitDomain, initStateForDomain cf d.densityLen =
      min cf ((d.densityLen : Int) - 1) := by
    intro d
    unfold initStateForDomain
    split <;> omega
  refine ⟨hmin, ?_, ?_⟩
  · intro p hp
    unfold initElmStates at hp
    simp only [List.mem_flatMap, List.mem_map] at hp
    obtain ⟨d, hd, en, hen, rfl⟩ := hp
    exact ⟨d, hd, hen, hmin d⟩
  · intro hcf d hlen
    rw [hmin d]
    omega

/-- C10 (witness): the amended theorem applied to `continue_from = 5` and
a domain with 2 states containing element 7. -/
theorem continue_from_init_min_clamp_witness :
    initStateForDomain 5 2 = min 5 ((2 : Int) - 1) ∧
      (0 ≤ initStateForDomain 5 2 ∧ initStateForDomain 5 2 < (2 : Int)) :=
  ⟨(continue_from_init_min_clamp 5 [⟨2, [7]⟩]).1 ⟨2, [7]⟩,
    (continue_from_init_min_clamp 5 [⟨2, [7]⟩]).2.2 (by omega) ⟨2, [7]⟩ (by decide)⟩

/-- C2: whenever the synthetic state sequence first repeats the states of
two iterations prior at iteration `k` (state maps being non-empty, as for
any real mesh), the oscillation check terminates the run exactly at
iteration `k` — the comparison of line 1030 fires at `k` and at no
earlier pass. -/
theorem oscillation_terminates_at_first_two_cycle (states : Nat → ElmStates)
    (k : Nat) (hk : 2 ≤ k) (hne : states 1 ≠ [])
    (hrep : states k = states (k - 2))
    (hpre : ∀ j, 2 ≤ j → j < k → states j ≠ states (j - 2)) :
    oscDetected states k = true ∧
      ∀ j, 1 ≤ j → j < k → oscDetected states j = false := by
  constructor
  · unfold oscDetected
    rw [oscRegs_fst states k hk, hrep]
    exact decide_eq_true rfl
  · intro j hj1 hjk
    by_cases h2 : 2 ≤ j
    · unfold oscDetected
      rw [oscRegs_fst states j h2]
      exact decide_eq_false fun h => hpre j h2 hjk h.symm
    · have hj : j = 1 := by omega
      subst hj
      unfold oscDetected
      exact decide_eq_false fun h => hne h.symm

/-- C2 (witness): the period-2 sequence repeating iteration 0 at
iteration 2 is caught exactly at iteration 2. -/
theorem oscillation_terminates_at_first_two_cycle_witness :
    oscDetected oscWitnessStates 2 = true ∧
      ∀ j, 1 ≤ j → j < 2 → oscDetected oscWitnessStates j = false :=
  oscillation_terminates_at_first_two_cycle oscWitnessStates 2 (by omega)
    (by decide) (by decide)
    (fun _ h2 hlt => absurd (h2.trans_lt hlt) (lt_irrefl 2))

/-- Helper: `continue_iterations` is `false` after the check of iteration
`i` exactly when some iteration up to `i` triggered a convergence
condition. -/
theorem continueIterations_false_iff (mean : Nat → ℚ) (tolerance : ℚ)
    (i : Nat) :
    continueIterations mean tolerance i = false ↔
      ∃ j, j ≤ i ∧ convergenceTriggered mean tolerance j = true := by
  induction i with
  | zero =>
      unfold continueIterations
      cases ht : convergenceTriggered mean tolerance 0 with
      | true =>
          simp only [Bool.not_true]
          exact ⟨fun _ => ⟨0, le_refl 0, ht⟩, fun _ => trivial⟩
      | false =>
          simp only [Bool.not_false]
          constructor
          · intro h
            exact Bool.noConfusion h
          · rintro ⟨j, hj, h⟩
            have hj0 : j = 0 := Nat.le_zero.mp hj
            subst hj0
            rw [ht] at h
            exact Bool.noConfusion h
  | succ n ih =>
      unfold continueIterations
      cases ht : convergenceTriggered mean tolerance (n + 1) with
      | true =>
          simp only [Bool.not_true, Bool.and_false]
          exact ⟨fun _ => ⟨n + 1, le_refl _, ht⟩, fun _ => trivial⟩
      | false =>
          simp only [Bool.not_false, Bool.and_true]
          rw [ih]
          constructor
          · rintro ⟨j, hj, h⟩
            exact ⟨j, by omega, h⟩
          · rintro ⟨j, hj, h⟩
            refine ⟨j, ?_, h⟩
            by_contra hb
            have hj1 : j = n + 1 := by omega
            subst hj1
            rw [ht] at h
            exact Bool.noConfusion h

/-- Helper: the Boolean check of lines 872-897 agrees with the spec-side
convergence condition. -/
theorem convergenceTriggered_iff (mean : Nat → ℚ) (tolerance : ℚ)
    (i : Nat) :
    convergenceTriggered mean tolerance i = true ↔
      specConvergenceCond mean tolerance i := by
  unfold convergenceTriggered specConvergenceCond
  split
  · next h5 =>
      split
      · next hd => simp [h5, hd]
      · next hd =>
          split
          · next heq => simp [h5, heq]
          · next heq => simp [h5, hd, heq]
  · next h5 => simp [h5]

/-- C3: the controller reports CONVERGED at iteration `i` (the break of
line 900 is taken because `continue_iterations` became false at this very
iteration) exactly when `i` is the first iteration with more than 5
recorded values of the tracked mean at which either the maximum relative
change over the last 5 iterations falls below `tolerance` or the mean is
exactly equal over three consecutive iterations — and CONVERGED is never
reported before that iteration. -/
theorem converged_iff_first_tolerance_or_stall (mean : Nat → ℚ)
    (tolerance : ℚ) (i : Nat) :
    convergedAt mean tolerance i ↔
      (specConvergenceCond mean tolerance i ∧
        ∀ j, j < i → ¬specConvergenceCond mean tolerance j) := by
  unfold convergedAt
  constructor
  · rintro ⟨hfalse, hprev⟩
    have hnot : ∀ j, j < i → ¬specConvergenceCond mean tolerance j := by
      intro j hj hc
      have hcf : continueIterations mean tolerance j = false :=
        (continueIterations_false_iff mean tolerance j).mpr
          ⟨j, le_refl j, (convergenceTriggered_iff mean tolerance j).mpr hc⟩
      rw [hprev j hj] at hcf
      exact Bool.noConfusion hcf
    obtain ⟨j, hj, ht⟩ :=
      (continueIterations_false_iff mean tolerance i).mp hfalse
    have hspec := (convergenceTriggered_iff mean tolerance j).mp ht
    have hji : j = i := by
      by_contra hb
      exact hnot j (by omega) hspec
    subst hji
    exact ⟨hspec, hnot⟩
  · rintro ⟨hc, hnot⟩
    refine ⟨?_, ?_⟩
    · exact (continueIterations_false_iff mean tolerance i).mpr
        ⟨i, le_refl i, (convergenceTriggered_iff mean tolerance i).mpr hc⟩
    · intro j hj
      cases hcj : continueIterations mean tolerance j with
      | true => rfl
      | false =>
          obtain ⟨j', hj', ht'⟩ :=
            (continueIterations_false_iff mean tolerance j).mp hcj
          exact absurd ((convergenceTriggered_iff mean tolerance j').mp ht')
            (hnot j' (by omega))

/-- C7 (counterexample): for the absolute ratio type with initial mass
fraction 7/10, goal ratio 1/5 and net removal ratio 3/100, the code sets
the automatic limit to `int(50/3 + 25) = 41`, while the number of linear
steps needed to cross the goal fraction is 17, so the claimed value
`17 + 25 = 42` differs from the code's 41. -/
theorem auto_limit_absolute_off_by_one_cex :
    iterationsLimitAutoAbs (7/10) (1/5) (3/100) 0 = some 41 ∧
      ((7 : ℚ)/10 - (17 : Nat) * (3/100) ≤ 1/5) ∧
      (∀ k : Nat, k < 17 → ¬((7 : ℚ)/10 - (k : ℚ) * (3/100) ≤ 1/5)) ∧
      (41 : Int) ≠ 17 + 25 := by
  refine ⟨?_, by norm_num, ?_, by decide⟩
  · unfold iterationsLimitAutoAbs pyInt
    rw [if_pos (by norm_num : (3 : ℚ)/100 - 0 > 0)]
    rw [if_pos (by norm_num : (0 : ℚ) ≤ ((7 : ℚ)/10 - 1/5) / (3/100 - 0) + 25)]
    congr 1
    have harg : ((7 : ℚ)/10 - 1/5) / (3/100 - 0) + 25 = 125/3 := by norm_num
    rw [harg]
    rw [Int.floor_eq_iff]
    norm_num
  · intro k hk
    interval_cases k <;> norm_num

/-- C7 (amended): with automatic `iterations_limit` and relative ratios,
in either direction, the limit equals the while-loop count — the least
`n` at which the geometrically shrinking (removing, lines 403-406) or
growing (adding, lines 407-410) mass fraction crosses the goal — plus
25, exactly as the claim states; with absolute ratios, in either
direction (lines 397-400), the limit is `int(q + 25)` for the linear
quotient `q`, i.e. the floor of the quotient plus 25, which is one less
than the linear crossing count whenever the quotient is not an
integer. -/
theorem auto_limit_characterization (m goal d : ℚ)
    (h : ∃ n, m * (1 - d) ^ n ≤ goal) (n : Nat)
    (ma goala da : ℚ) (ha : ∃ n, goala ≤ ma * (1 + da) ^ n) (na : Nat)
    (m2 goal2 rem2 add2 : ℚ) (hpos : rem2 - add2 > 0)
    (hq : 0 ≤ (m2 - goal2) / (rem2 - add2))
    (m3 goal3 rem3 add3 : ℚ) (hneg : rem3 - add3 < 0)
    (hq3 : 0 ≤ (goal3 - m3) / (add3 - rem3)) :
    (iterationsLimitAutoRelRemoving m goal d h = n + 25 ↔
        (m * (1 - d) ^ n ≤ goal ∧ ∀ k, k < n → goal < m * (1 - d) ^ k)) ∧
      (iterationsLimitAutoRelAdding ma goala da ha = na + 25 ↔
        (goala ≤ ma * (1 + da) ^ na ∧
          ∀ k, k < na → ma * (1 + da) ^ k < goala)) ∧
      (iterationsLimitAutoAbs m2 goal2 rem2 add2 =
        some (⌊(m2 - goal2) / (rem2 - add2)⌋ + 25)) ∧
      (iterationsLimitAutoAbs m3 goal3 rem3 add3 =
        some (⌊(goal3 - m3) / (add3 - rem3)⌋ + 25)) := by
  refine ⟨?_, ?_, ?_, ?_⟩
  · unfold iterationsLimitAutoRelRemoving relRemovingSteps
    rw [Nat.add_right_cancel_iff, Nat.find_eq_iff]
    simp [not_le]
  · unfold iterationsLimitAutoRelAdding relAddingSteps
    rw [Nat.add_right_cancel_iff, Nat.find_eq_iff]
    simp [not_le]
  · unfold iterationsLimitAutoAbs pyInt
    rw [if_pos hpos,
      if_pos (by linarith : (0 : ℚ) ≤ (m2 - goal2) / (rem2 - add2) + 25)]
    congr 1
    rw [show (25 : ℚ) = ((25 : Int) : ℚ) by norm_num, Int.floor_add_int]
  · unfold iterationsLimitAutoAbs pyInt
    rw [if_neg (by linarith : ¬rem3 - add3 > 0), if_pos hneg,
      if_pos (by linarith : (0 : ℚ) ≤ (goal3 - m3) / (add3 - rem3) + 25)]
    congr 1
    rw [show (25 : ℚ) = ((25 : Int) : ℚ) by norm_num, Int.floor_add_int]

/-- C7 (witness): the amended theorem at mass fraction 1, goal 1/2 and
relative net removal ratio 1/2 (crossing count 1, limit 26); at mass
fraction 1/2, goal 1 and relative net addition ratio 1/2 (crossing count
2, limit 27); and at absolute parameters in both directions, including
those of the counterexample. -/
theorem auto_limit_characterization_witness :
    (iterationsLimitAutoRelRemoving 1 (1/2) (1/2)
          (relRemoving_exists 1 (1/2) (1/2) (by norm_num) (by norm_num)) =
          1 + 25 ↔
        ((1 : ℚ) * (1 - 1/2) ^ 1 ≤ 1/2 ∧
          ∀ k, k < 1 → (1 : ℚ)/2 < 1 * (1 - 1/2) ^ k)) ∧
      (iterationsLimitAutoRelAdding (1/2) 1 (1/2)
          (relAdding_exists (1/2) 1 (1/2) (by norm_num) (by norm_num)) =
          2 + 25 ↔
        ((1 : ℚ) ≤ 1/2 * (1 + 1/2) ^ 2 ∧
          ∀ k, k < 2 → (1 : ℚ)/2 * (1 + 1/2) ^ k < 1)) ∧
      (iterationsLimitAutoAbs (7/10) (1/5) (3/100) 0 =
        some (⌊((7 : ℚ)/10 - 1/5) / (3/100 - 0)⌋ + 25)) ∧
      (iterationsLimitAutoAbs (1/5) (7/10) 0 (3/100) =
        some (⌊((7 : ℚ)/10 - 1/5) / (3/100 - 0)⌋ + 25)) :=
  auto_limit_characterization 1 (1/2) (1/2)
    (relRemoving_exists 1 (1/2) (1/2) (by norm_num) (by norm_num)) 1
    (1/2) 1 (1/2)
    (relAdding_exists (1/2) 1 (1/2) (by norm_num) (by norm_num)) 2
    (7/10) (1/5) (3/100) 0 (by norm_num) (by norm_num)
    (1/5) (7/10) 0 (3/100) (by norm_num) (by norm_num)

/-- Helper: folding `max` from an accumulated maximum. -/
theorem foldl_max_comm (as : List ℚ) (a b : ℚ) :
    as.foldl max (max a b) = max a (as.foldl max b) := by
  induction as generalizing b with
  | nil => rfl
  | cons c as ih =>
      show as.foldl max (max (max a b) c) = max a ((c :: as).foldl max b)
      rw [max_assoc]
      exact ih (max b c)

/-- Helper: Python `max` of a non-empty list, via `List.max?`. -/
theorem foldl_max_of_maxElem (l : List ℚ) (ms acc : ℚ)
    (h : l.max? = some ms) :
    l.foldl max acc = max acc ms := by
  cases l with
  | nil => exact Option.noConfusion h
  | cons a as =>
      have hms : as.foldl max a = ms := Option.some.inj h
      show as.foldl max (max acc a) = max acc ms
      rw [← hms]
      exact foldl_max_comm as acc a

/-- Helper: the loop of lines 670-676 computes the running maximum of all
non-`None` failure indices, seeded with the accumulator, provided every
load step holds at least one non-`None` value. -/
theorem fiStepMaxAux_eq (fis : List (List (Option ℚ)))
    (hstep : ∀ step ∈ fis, step.filterMap id ≠ []) (acc : ℚ) :
    fiStepMaxAux fis acc = some ((allFIs fis).foldl max acc) := by
  induction fis generalizing acc with
  | nil => simp [fiStepMaxAux, allFIs]
  | cons step rest ih =>
      have hne : step.filterMap id ≠ [] := hstep step (List.mem_cons_self step rest)
      obtain ⟨ms, hms⟩ : ∃ ms, (step.filterMap id).max? = some ms := by
        cases hl : step.filterMap id with
        | nil => exact absurd hl hne
        | cons a as => exact ⟨as.foldl max a, by rfl⟩
      have hred : fiStepMaxAux (step :: rest) acc = fiStepMaxAux rest (max acc ms) := by
        simp only [fiStepMaxAux, hms]
      rw [hred, ih (fun s hs => hstep s (List.mem_cons_of_mem step hs)) (max acc ms)]
      congr 1
      show (allFIs rest).foldl max (max acc ms) = (allFIs (step :: rest)).foldl max acc
      unfold allFIs
      rw [List.map_cons, List.flatten_cons, List.foldl_append,
        foldl_max_of_maxElem (step.filterMap id) ms acc hms]

/-- C9: for the `failure_index` objective, the sensitivity number of an
element equals the maximum failure ratio over all load steps and criteria
(the non-`None` failure indices), divided by the density of the element's
current state in its domain's density table, provided every load step
records at least one criterion value and all values are non-negative. -/
theorem sensitivity_failure_index_eq (fis : List (List (Option ℚ)))
    (density : List ℚ) (state : Nat) (M : ℚ)
    (hstep : ∀ step ∈ fis, step.filterMap id ≠ [])
    (hnn : ∀ x ∈ allFIs fis, 0 ≤ x)
    (hmax : (allFIs fis).max? = some M) :
    sensitivityFailureIndex fis density state =
      some (M / density.getD state 0) := by
  unfold sensitivityFailureIndex fiStepMax
  rw [fiStepMaxAux_eq fis hstep 0, foldl_max_of_maxElem (allFIs fis) M 0 hmax]
  have hM : 0 ≤ M :=
    hnn M (List.max?_mem (fun a b => max_choice a b) hmax)
  rw [max_eq_right hM]
  rfl

/-- C9 (witness): an element with failure indices 2 (criterion 1, step 1,
second criterion absent) and 1 (step 2), in state 1 of a domain with
density table `[1, 2]`, gets sensitivity `2 / 2`. -/
theorem sensitivity_failure_index_eq_witness :
    sensitivityFailureIndex [[some 2, none], [some 1]] [1, 2] 1 =
      some ((2 : ℚ) / List.getD [1, 2] 1 0) :=
  sensitivity_failure_index_eq [[some 2, none], [some 1]] [1, 2] 1 2
    (by intro step hs
        rcases hs with _ | ⟨_, hs⟩
        · simp
        · rcases hs with _ | ⟨_, hs⟩
          · simp
          · cases hs)
    (by intro x hx
        rcases hx with _ | ⟨_, hx⟩
        · norm_num
        · rcases hx with _ | ⟨_, hx⟩
          · norm_num
          · cases hx)
    (by rfl)

/-- Helper: a shell element's mass delta reads the pre-filter state map
only at its own element number. -/
theorem shellDelta_congr (d : OptDomain) (st st' stf : Nat → Nat)
    (e : ShellElem) (h : st' e.en = st e.en) :
    shellDelta d st' stf e = shellDelta d st stf e := by
  unfold shellDelta shellMass
  rw [h]

/-- Helper: a volume element's mass delta reads the pre-filter state map
only at its own element number. -/
theorem volDelta_congr (d : OptDomain) (st st' stf : Nat → Nat)
    (e : VolElem) (h : st' e.en = st e.en) :
    volDelta d st' stf e = volDelta d st stf e := by
  unfold volDelta volMass
  rw [h]

/-- Helper: sum of shell deltas under a state map agreeing on the listed
elements. -/
theorem shellDeltaSum_congr (d : OptDomain) (st st' stf : Nat → Nat)
    (es : List ShellElem) (h : ∀ e ∈ es, st' e.en = st e.en) :
    (es.map (shellDelta d st' stf)).sum = (es.map (shellDelta d st stf)).sum := by
  rw [List.map_congr_left fun e he => shellDelta_congr d st st' stf e (h e he)]

/-- Helper: sum of volume deltas under a state map agreeing on the listed
elements. -/
theorem volDeltaSum_congr (d : OptDomain) (st st' stf : Nat → Nat)
    (es : List VolElem) (h : ∀ e ∈ es, st' e.en = st e.en) :
    (es.map (volDelta d st' stf)).sum = (es.map (volDelta d st stf)).sum := by
  rw [List.map_congr_left fun e he => volDelta_congr d st st' stf e (h e he)]

/-- Helper: the shell element numbers of an optimized domain are among the
optimized element numbers. -/
theorem mem_optEns_of_shell (doms : List OptDomain) (d : OptDomain)
    (e : ShellElem) (hd : d ∈ doms) (hopt : d.optimized = true)
    (he : e ∈ d.shells) : e.en ∈ optEns doms := by
  unfold optEns
  rw [List.mem_flatMap]
  refine ⟨d, hd, ?_⟩
  rw [if_pos hopt]
  unfold OptDomain.ens
  exact List.mem_append_left _ (List.mem_map_of_mem ShellElem.en he)

/-- Helper: the volume element numbers of an optimized domain are among
the optimized element numbers. -/
theorem mem_optEns_of_vol (doms : List OptDomain) (d : OptDomain)
    (e : VolElem) (hd : d ∈ doms) (hopt : d.optimized = true)
    (he : e ∈ d.volumes) : e.en ∈ optEns doms := by
  unfold optEns
  rw [List.mem_flatMap]
  refine ⟨d, hd, ?_⟩
  rw [if_pos hopt]
  unfold OptDomain.ens
  exact List.mem_append_right _ (List.mem_map_of_mem VolElem.en he)

/-- Helper: the per-filter mass delta only reads the pre-filter state map
at optimized element numbers. -/
theorem filterMassDelta_congr (doms : List OptDomain) (st st' stf : Nat → Nat)
    (h : ∀ en ∈ optEns doms, st' en = st en) :
    filterMassDelta doms st' stf = filterMassDelta doms st stf := by
  unfold filterMassDelta
  congr 1
  apply List.map_congr_left
  intro d hd
  by_cases hopt : d.optimized
  · rw [if_pos hopt, if_pos hopt]
    congr 1
    · exact shellDeltaSum_congr d st st' stf d.shells
        fun e he => h e.en (mem_optEns_of_shell doms d e hd hopt he)
    · exact volDeltaSum_congr d st st' stf d.volumes
        fun e he => h e.en (mem_optEns_of_vol doms d e hd hopt he)
  · rw [if_neg hopt, if_neg hopt]

/-- Helper: a filter leaving every optimized element's state unchanged
implies a zero total mass delta. -/
theorem filterMassDelta_zero (doms : List OptDomain) (st stf : Nat → Nat)
    (h : ∀ en ∈ optEns doms, stf en = st en) :
    filterMassDelta doms st stf = 0 := by
  unfold filterMassDelta
  apply List.sum_eq_zero
  intro x hx
  obtain ⟨d, hd, rfl⟩ := List.mem_map.mp hx
  by_cases hopt : d.optimized
  · rw [if_pos hopt]
    have hs : (d.shells.map (shellDelta d st stf)).sum = 0 := by
      apply List.sum_eq_zero
      intro y hy
      obtain ⟨e, he, rfl⟩ := List.mem_map.mp hy
      unfold shellDelta
      rw [if_neg
        (not_ne_iff.mpr (h e.en (mem_optEns_of_shell doms d e hd hopt he)).symm)]
    have hv : (d.volumes.map (volDelta d st stf)).sum = 0 := by
      apply List.sum_eq_zero
      intro y hy
      obtain ⟨e, he, rfl⟩ := List.mem_map.mp hy
      unfold volDelta
      rw [if_neg
        (not_ne_iff.mpr (h e.en (mem_optEns_of_vol doms d e hd hopt he)).symm)]
    rw [hs, hv, add_zero]
  · rw [if_neg hopt]

/-- Helper: the sequential shell walk of lines 990-996 equals a batch
state update plus the batch sum of the per-element mass deltas, for
pairwise distinct element numbers. -/
theorem shellPass_eq (d : OptDomain) (stf : Nat → Nat) (es : List ShellElem)
    (st : Nat → Nat) (m : ℚ) (hnd : (es.map ShellElem.en).Nodup) :
    shellPass d stf es (st, m) =
      ((fun en => if en ∈ es.map ShellElem.en then stf en else st en),
        m + (es.map (shellDelta d st stf)).sum) := by
  induction es generalizing st m with
  | nil => simp [shellPass]
  | cons e rest ih =>
      rw [List.map_cons, List.nodup_cons] at hnd
      obtain ⟨hnotin, hndr⟩ := hnd
      by_cases hcase : st e.en ≠ stf e.en
      · rw [show shellPass d stf (e :: rest) (st, m) =
              shellPass d stf rest
                (Function.update st e.en (stf e.en),
                  m + e.area *
                    (d.density.getD (stf e.en) 0 * d.thickness.getD (stf e.en) 0 -
                      d.density.getD (st e.en) 0 * d.thickness.getD (st e.en) 0)) by
            simp only [shellPass, if_pos hcase]]
        rw [ih _ _ hndr]
        refine Prod.ext ?_ ?_
        · funext en
          by_cases hr : en ∈ rest.map ShellElem.en
          · simp [hr, List.mem_cons]
          · by_cases he : en = e.en
            · subst he
              simp [hr, List.mem_cons, Function.update_same]
            · simp [hr, he, List.mem_cons, Function.update_noteq he]
        · show m + _ + _ = m + _
          have hsum :
              (rest.map (shellDelta d (Function.update st e.en (stf e.en)) stf)).sum =
                (rest.map (shellDelta d st stf)).sum := by
            apply shellDeltaSum_congr
            intro e' he'
            have hne : e'.en ≠ e.en := by
              intro heq
              exact hnotin (heq ▸ List.mem_map_of_mem ShellElem.en he')
            exact Function.update_noteq hne _ _
          rw [hsum, List.map_cons, List.sum_cons]
          have hdelta : shellDelta d st stf e =
              e.area *
                (d.density.getD (stf e.en) 0 * d.thickness.getD (stf e.en) 0 -
                  d.density.getD (st e.en) 0 * d.thickness.getD (st e.en) 0) := by
            unfold shellDelta shellMass
            rw [if_pos hcase]
            ring
          rw [hdelta]
          ring
      · rw [show shellPass d stf (e :: rest) (st, m) = shellPass d stf rest (st, m) by
              simp only [shellPass, if_neg hcase]]
        rw [ih _ _ hndr]
        rw [not_not] at hcase
        refine Prod.ext ?_ ?_
        · funext en
          by_cases hr : en ∈ rest.map ShellElem.en
          · simp [hr, List.mem_cons]
          · by_cases he : en = e.en
            · subst he
              simp [hr, List.mem_cons, hcase]
            · simp [hr, he, List.mem_cons]
        · show m + _ = m + _
          rw [List.map_cons, List.sum_cons]
          have hdelta : shellDelta d st stf e = 0 := by
            unfold shellDelta
            rw [if_neg (not_ne_iff.mpr hcase)]
          rw [hdelta]
          ring

/-- Helper: the sequential volume walk of lines 997-1001 equals a batch
state update plus the batch sum of the per-element mass deltas, for
pairwise distinct element numbers. -/
theorem volPass_eq (d : OptDomain) (stf : Nat → Nat) (es : List VolElem)
    (st : Nat → Nat) (m : ℚ) (hnd : (es.map VolElem.en).Nodup) :
    volPass d stf es (st, m) =
      ((fun en => if en ∈ es.map VolElem.en then stf en else st en),
        m + (es.map (volDelta d st stf)).sum) := by
  induction es generalizing st m with
  | nil => simp [volPass]
  | cons e rest ih =>
      rw [List.map_cons, List.nodup_cons] at hnd
      obtain ⟨hnotin, hndr⟩ := hnd
      by_cases hcase : st e.en ≠ stf e.en
      · rw [show volPass d stf (e :: rest) (st, m) =
              volPass d stf rest
                (Function.update st e.en (stf e.en),
                  m + e.volume *
                    (d.density.getD (stf e.en) 0 - d.density.getD (st e.en) 0)) by
            simp only [volPass, if_pos hcase]]
        rw [ih _ _ hndr]
        refine Prod.ext ?_ ?_
        · funext en
          by_cases hr : en ∈ rest.map VolElem.en
          · simp [hr, List.mem_cons]
          · by_cases he : en = e.en
            · subst he
              simp [hr, List.mem_cons, Function.update_same]
            · simp [hr, he, List.mem_cons, Function.update_noteq he]
        · show m + _ + _ = m + _
          have hsum :
              (rest.map (volDelta d (Function.update st e.en (stf e.en)) stf)).sum =
                (rest.map (volDelta d st stf)).sum := by
            apply volDeltaSum_congr
            intro e' he'
            have hne : e'.en ≠ e.en := by
              intro heq
              exact hnotin (heq ▸ List.mem_map_of_mem VolElem.en he')
            exact Function.update_noteq hne _ _
          rw [hsum, List.map_cons, List.sum_cons]
          have hdelta : volDelta d st stf e =
              e.volume * (d.density.getD (stf e.en) 0 - d.density.getD (st e.en) 0) := by
            unfold volDelta volMass
            rw [if_pos hcase]
            ring
          rw [hdelta]
          ring
      · rw [show volPass d stf (e :: rest) (st, m) = volPass d stf rest (st, m) by
              simp only [volPass, if_neg hcase]]
        rw [ih _ _ hndr]
        rw [not_not] at hcase
        refine Prod.ext ?_ ?_
        · funext en
          by_cases hr : en ∈ rest.map VolElem.en
          · simp [hr, List.mem_cons]
          · by_cases he : en = e.en
            · subst he
              simp [hr, List.mem_cons, hcase]
            · simp [hr, he, List.mem_cons]
        · show m + _ = m + _
          rw [List.map_cons, List.sum_cons]
          have hdelta : volDelta d st stf e = 0 := by
            unfold volDelta
            rw [if_neg (not_ne_iff.mpr hcase)]
          rw [hdelta]
          ring

/-- Helper: the correction loop over all configured domains equals a
batch state update on the optimized element numbers plus the batch total
mass delta, provided element numbers are pairwise distinct. -/
theorem domainsPass_eq (doms : List OptDomain) (stf : Nat → Nat)
    (st : Nat → Nat) (m : ℚ) (hnd : (optEns doms).Nodup) :
    domainsPass doms stf (st, m) =
      ((fun en => if en ∈ optEns doms then stf en else st en),
        m + filterMassDelta doms st stf) := by
  induction doms generalizing st m with
  | nil =>
      refine Prod.ext (funext fun en => ?_) ?_
      · simp [domainsPass, optEns]
      · simp [domainsPass, filterMassDelta]
  | cons d rest ih =>
      have hsplit : optEns (d :: rest) =
          (if d.optimized then d.ens else []) ++ optEns rest := by
        simp [optEns]
      by_cases hopt : d.optimized
      · rw [hsplit, if_pos hopt] at hnd
        rw [List.nodup_append] at hnd
        obtain ⟨hens, hrest, hdisj⟩ := hnd
        unfold OptDomain.ens at hens hdisj
        rw [List.nodup_append] at hens
        obtain ⟨hs, hv, hsv⟩ := hens
        rw [show domainsPass (d :: rest) stf (st, m) =
              domainsPass rest stf
                (volPass d stf d.volumes (shellPass d stf d.shells (st, m))) by
            simp only [domainsPass, List.foldl_cons, if_pos hopt]]
        rw [shellPass_eq d stf d.shells st m hs]
        rw [volPass_eq d stf d.volumes _ _ hv]
        have hvsum :
            (d.volumes.map (volDelta d
                (fun en => if en ∈ d.shells.map ShellElem.en then stf en else st en)
                stf)).sum =
              (d.volumes.map (volDelta d st stf)).sum := by
          apply volDeltaSum_congr
          intro e he
          have : e.en ∉ d.shells.map ShellElem.en :=
            fun hmem => hsv hmem (List.mem_map_of_mem VolElem.en he)
          simp [this]
        rw [hvsum]
        rw [ih _ _ hrest]
        refine Prod.ext (funext fun en => ?_) ?_
        · show (if en ∈ optEns rest then stf en
                else if en ∈ d.volumes.map VolElem.en then stf en
                else if en ∈ d.shells.map ShellElem.en then stf en else st en) =
              if en ∈ optEns (d :: rest) then stf en else st en
          rw [hsplit, if_pos hopt]
          by_cases h1 : en ∈ optEns rest
          · simp [h1, List.mem_append]
          · by_cases h2 : en ∈ d.volumes.map VolElem.en
            · have hens : en ∈ d.ens := by
                unfold OptDomain.ens
                exact List.mem_append_right _ h2
              simp [h1, h2, hens, List.mem_append]
            · by_cases h3 : en ∈ d.shells.map ShellElem.en
              · have hens : en ∈ d.ens := by
                  unfold OptDomain.ens
                  exact List.mem_append_left _ h3
                simp [h1, h2, h3, hens, List.mem_append]
              · have hens : en ∉ d.ens := by
                  unfold OptDomain.ens
                  simp [List.mem_append, h2, h3]
                simp [h1, h2, h3, hens, List.mem_append]
        · show m + _ + _ + filterMassDelta rest _ stf = m + filterMassDelta (d :: rest) st stf
          have hrsum : filterMassDelta rest
              (fun en => if en ∈ d.volumes.map VolElem.en then stf en
                else if en ∈ d.shells.map ShellElem.en then stf en else st en) stf =
              filterMassDelta rest st stf := by
            apply filterMassDelta_congr
            intro en hen
            have hd2 : en ∉ d.ens := fun hmem => hdisj hmem hen
            unfold OptDomain.ens at hd2
            rw [List.mem_append] at hd2
            push_neg at hd2
            simp [hd2.1, hd2.2]
          rw [hrsum]
          unfold filterMassDelta
          rw [List.map_cons, List.sum_cons, if_pos hopt]
          ring
      · rw [show domainsPass (d :: rest) stf (st, m) = domainsPass rest stf (st, m) by
              simp only [domainsPass, List.foldl_cons, if_neg hopt]]
        have hnd' : (optEns rest).Nodup := by
          rw [hsplit, if_neg hopt] at hnd
          simpa using hnd
        rw [ih _ _ hnd']
        refine Prod.ext (funext fun en => ?_) ?_
        · rw [hsplit, if_neg hopt]
          simp
        · show m + _ = m + _
          unfold filterMassDelta
          rw [List.map_cons, List.sum_cons, if_neg hopt]
          ring

/-- C5: for one state-kind morphological filter, the ledger entry
`mass[i]` is corrected by exactly the sum over changed elements of the
mass at the new state minus the mass at the old state (area times
per-state thickness times density for shells, volume times density for
volumes), the whole correction is retained as `mass_excess`, and when the
filter changes no optimized element's state (or no state filter runs at
all) the excess is 0 and both the ledger entry and the state map are
unchanged.  Element numbers are assumed pairwise distinct, as for any
real mesh. -/
theorem state_filter_mass_correction (doms : List OptDomain)
    (filt : (Nat → Nat) → Nat → Nat) (st : Nat → Nat) (massI : ℚ)
    (hnd : (optEns doms).Nodup) :
    ((stateFilterStage doms [filt] st massI).1.2 =
        massI + filterMassDelta doms st (filt st)) ∧
      ((stateFilterStage doms [filt] st massI).2 =
        filterMassDelta doms st (filt st)) ∧
      ((stateFilterStage doms [] st massI).2 = 0) ∧
      ((∀ en ∈ optEns doms, filt st en = st en) →
        (stateFilterStage doms [filt] st massI).2 = 0 ∧
          (stateFilterStage doms [filt] st massI).1.2 = massI ∧
          ∀ en, (stateFilterStage doms [filt] st massI).1.1 en = st en) := by
  have hpass : stateFilterPass doms filt (st, massI) =
      ((fun en => if en ∈ optEns doms then filt st en else st en),
        massI + filterMassDelta doms st (filt st)) := by
    unfold stateFilterPass
    exact domainsPass_eq doms (filt st) st massI hnd
  refine ⟨?_, ?_, ?_, ?_⟩
  · simp only [stateFilterStage, List.foldl_cons, List.foldl_nil, hpass]
  · simp only [stateFilterStage, List.foldl_cons, List.foldl_nil, hpass]
    ring
  · simp only [stateFilterStage, List.foldl_nil, sub_self]
  · intro hno
    have hzero : filterMassDelta doms st (filt st) = 0 :=
      filterMassDelta_zero doms st (filt st) hno
    refine ⟨?_, ?_, fun en => ?_⟩
    · simp only [stateFilterStage, List.foldl_cons, List.foldl_nil, hpass, hzero]
      ring
    · simp only [stateFilterStage, List.foldl_cons, List.foldl_nil, hpass, hzero]
      ring
    · simp only [stateFilterStage, List.foldl_cons, List.foldl_nil, hpass]
      by_cases hen : en ∈ optEns doms
      · simp [hen, hno en hen]
      · simp [hen]

/-- C5 (witness): the correction theorem applied to the concrete
one-domain mesh, the erode-to-void filter and ledger entry 40. -/
theorem state_filter_mass_correction_witness :
    ((stateFilterStage csDoms [csFilt] csSt 40).1.2 =
        40 + filterMassDelta csDoms csSt (csFilt csSt)) ∧
      ((stateFilterStage csDoms [csFilt] csSt 40).2 =
        filterMassDelta csDoms csSt (csFilt csSt)) ∧
      ((stateFilterStage csDoms [] csSt 40).2 = 0) ∧
      ((∀ en ∈ optEns csDoms, csFilt csSt en = csSt en) →
        (stateFilterStage csDoms [csFilt] csSt 40).2 = 0 ∧
          (stateFilterStage csDoms [csFilt] csSt 40).1.2 = 40 ∧
          ∀ en, (stateFilterStage csDoms [csFilt] csSt 40).1.1 en = csSt en) :=
  state_filter_mass_correction csDoms csFilt csSt 40 (by decide)

end Beso
